import Mathlib

/-!
Verification of the advertisement store of the cv-tracker application
(`src/App.tsx`, duplicated with identical logic in the restyled variant).

The store keeps an in-memory list of `Advertisement` records, persists it as a
single JSON blob under the key `"advertisements"` in the device key-value
storage, and exposes load / add / delete / search operations.  This file
shallowly embeds those operations:

* strings are Lean `String`s (sequences of characters, as in JS);
* `Date.now()` results are explicit `Nat` parameters (epoch milliseconds);
* `AsyncStorage` is a `Storage` value holding the single slot, and the success
  or failure of each I/O call is an explicit boolean parameter;
* `JSON.stringify` / `JSON.parse` on the advertisement list are embedded as an
  executable serializer and parser over the exact flat record shape the code
  writes (`\x7b"id":…,"imageUri":…,"description":…,"url":…,"createdAt":…\x7d`);
  string escaping covers the printable characters and the common control
  characters `\n`, `\t`, `\r`, `\b`, `\f`; the `\uXXXX` escapes JSON uses for
  the remaining control characters are not modelled, so theorems about the
  serializer carry a tameness hypothesis restricting fields to that domain;
* React state updates (`setAdvertisements`, `setCurrentScreen`, `setLoading`)
  become functional updates of an `AppState` record.
-/

/-! ### Decimal digits and `Date.now().toString()` -/

/-- Decimal digit character, as produced by JS `Number.prototype.toString`. -/
def digitChar (d : Nat) : Char :=
  match d with
  | 0 => '0' | 1 => '1' | 2 => '2' | 3 => '3' | 4 => '4'
  | 5 => '5' | 6 => '6' | 7 => '7' | 8 => '8' | 9 => '9'
  | _ => '*'

/-- Inverse of `digitChar` on actual digit characters. -/
def charDigit? (c : Char) : Option Nat :=
  if c = '0' then some 0 else if c = '1' then some 1 else if c = '2' then some 2
  else if c = '3' then some 3 else if c = '4' then some 4 else if c = '5' then some 5
  else if c = '6' then some 6 else if c = '7' then some 7 else if c = '8' then some 8
  else if c = '9' then some 9 else none

/-- Fuel-indexed decimal rendering; `fuel` only has to exceed the number of
digits (we always call it with `n + 1`, which suffices since `n < 10 ^ (n+1)`). -/
def natDigitsAux : Nat → Nat → List Char
  | 0, _ => []
  | fuel + 1, n =>
    if n < 10 then [digitChar n]
    else natDigitsAux fuel (n / 10) ++ [digitChar (n % 10)]

/-- Decimal rendering of a natural number; embeds the JS expressions
`Date.now().toString()` and template interpolation of integers. -/
def natToString (n : Nat) : String :=
  ⟨natDigitsAux (n + 1) n⟩

/-- Two-digit zero padding, as requested by the 2-digit options of
`toLocaleDateString` in the source. -/
def pad2 (n : Nat) : String :=
  if n < 10 then "0" ++ natToString n else natToString n

/-! ### Date rendering used by the search filter -/

/-- Civil (Gregorian) date from a count of days since 1970-01-01, giving
`(year, month, day)`.  Standard era-based conversion on `Nat`. -/
def civilFromDays (z : Nat) : Nat × Nat × Nat :=
  let z2 := z + 719468
  let era := z2 / 146097
  let doe := z2 % 146097
  let yoe := (doe - doe / 1460 + doe / 36524 - doe / 146096) / 365
  let y := yoe + era * 400
  let doy := doe - (365 * yoe + yoe / 4 - yoe / 100)
  let mp := (5 * doy + 2) / 153
  let d := doy - (153 * mp + 2) / 5 + 1
  let m := if mp < 10 then mp + 3 else mp - 9
  (if m ≤ 2 then y + 1 else y, m, d)

/-- Modelled from the spec: the source renders the creation timestamp with
`toLocaleDateString` under the pl-PL locale, with 2-digit day, month, hour
and minute and a numeric year — a platform API whose implementation is not
part of this repository.  The spec
fixes the rendered convention as `DD.MM.YYYY HH:MM` (day/month/year, 24-hour
time); this function realizes that convention from epoch milliseconds,
interpreting the timestamp in UTC. -/
def formatDate (ms : Nat) : String :=
  let totalMinutes := ms / 60000
  let minute := totalMinutes % 60
  let totalHours := totalMinutes / 60
  let hour := totalHours % 24
  let days := totalHours / 24
  let ymd := civilFromDays days
  pad2 ymd.2.2 ++ "." ++ pad2 ymd.2.1 ++ "." ++ natToString ymd.1
    ++ " " ++ pad2 hour ++ ":" ++ pad2 minute

/-! ### Character-sequence embeddings of the JS string operations -/

/-- Embeds JS `String.prototype.toLowerCase` (the source only relies on its
ASCII behaviour, which `Char.toLower` matches). -/
def strLower (s : String) : String :=
  ⟨s.data.map Char.toLower⟩

/-- Whether `pat` occurs at the start of `s`. -/
def prefixMatches : List Char → List Char → Bool
  | [], _ => true
  | _ :: _, [] => false
  | p :: ps, c :: cs => p == c && prefixMatches ps cs

/-- Whether `pat` occurs as a contiguous subsequence of `s`. -/
def containsChars : List Char → List Char → Bool
  | [], pat => prefixMatches pat []
  | c :: cs, pat => prefixMatches pat (c :: cs) || containsChars cs pat

/-- Embeds JS `String.prototype.includes`. -/
def strContains (s pat : String) : Bool :=
  containsChars s.data pat.data

/-- Embeds the JS truthiness test `!searchQuery.trim()`: the trimmed string is
empty exactly when every character is whitespace. -/
def strBlank (s : String) : Bool :=
  s.data.all Char.isWhitespace

/-! ### JSON serialization of the advertisement list

Embeds `JSON.stringify` / `JSON.parse` on the exact value shape the store
writes: an array of flat objects with the five fields in insertion order.
-/

/-- JSON escaping of one character, as `JSON.stringify` performs it for the
printable characters and the control characters that have short escapes.
(The `\uXXXX` escapes used for the remaining control characters are outside
the model; see the tameness predicates below.) -/
def escChar (c : Char) : List Char :=
  if c = '"' then ['\\', '"']
  else if c = '\\' then ['\\', '\\']
  else if c = '\n' then ['\\', 'n']
  else if c = '\t' then ['\\', 't']
  else if c = '\r' then ['\\', 'r']
  else if c = '\x08' then ['\\', 'b']
  else if c = '\x0c' then ['\\', 'f']
  else [c]

/-- JSON escaping of a character sequence. -/
def escapeString : List Char → List Char
  | [] => []
  | c :: cs => escChar c ++ escapeString cs

/-- JSON escaping of a string. -/
def escStr (s : String) : String :=
  ⟨escapeString s.data⟩

/-- Inverse of the short escapes accepted after a backslash. -/
def unescapeChar (e : Char) : Option Char :=
  if e = '"' then some '"'
  else if e = '\\' then some '\\'
  else if e = 'n' then some '\n'
  else if e = 't' then some '\t'
  else if e = 'r' then some '\r'
  else if e = 'b' then some '\x08'
  else if e = 'f' then some '\x0c'
  else none

/-- Parses a JSON string body (the opening quote already consumed), returning
the decoded characters and the input after the closing quote. -/
def parseStringLit : List Char → Option (List Char × List Char)
  | [] => none
  | c :: cs =>
    if c = '"' then some ([], cs)
    else if c = '\\' then
      match cs with
      | [] => none
      | e :: cs2 =>
        match unescapeChar e, parseStringLit cs2 with
        | some u, some (content, rest) => some (u :: content, rest)
        | _, _ => none
    else
      match parseStringLit cs with
      | some (content, rest) => some (c :: content, rest)
      | none => none

/-- Consumes an expected literal character sequence. -/
def stripLit : List Char → List Char → Option (List Char)
  | [], s => some s
  | _ :: _, [] => none
  | p :: ps, c :: cs => if p = c then stripLit ps cs else none

/-- Accumulates leading decimal digits. -/
def parseDigitsAux : List Char → Nat → Nat × List Char
  | [], acc => (acc, [])
  | c :: cs, acc =>
    match charDigit? c with
    | some d => parseDigitsAux cs (acc * 10 + d)
    | none => (acc, c :: cs)

/-- Parses a decimal natural number (at least one digit). -/
def parseNat (s : List Char) : Option (Nat × List Char) :=
  match s with
  | [] => none
  | c :: _ =>
    match charDigit? c with
    | some _ => some (parseDigitsAux s 0)
    | none => none

/-! ### Data model -/

/-- The only entity of the application (`interface Advertisement` in the
source): one tracked job advertisement. -/
structure Advertisement where
  id : String
  imageUri : String
  description : String
  url : String
  createdAt : Nat
deriving DecidableEq, Repr

/-- The three screens of the application (`type Screen` in the source). -/
inductive Screen where
  | Home
  | Add
  | Details
deriving DecidableEq, Repr

/-- The React state held at application root: current screen, the in-memory
advertisement list, the record selected for the details screen, and the
loading flag. -/
structure AppState where
  currentScreen : Screen
  advertisements : List Advertisement
  selectedAd : Option Advertisement
  loading : Bool
deriving DecidableEq, Repr

/-- The durable side: the single `AsyncStorage` slot keyed `"advertisements"`. -/
structure Storage where
  slot : Option String
deriving DecidableEq, Repr

/-- The initial React state (`useState` initializers in the source). -/
def initialAppState : AppState :=
  { currentScreen := Screen.Home
    advertisements := []
    selectedAd := none
    loading := true }

/-- Storage before anything was ever written. -/
def emptyStorage : Storage :=
  ⟨none⟩

/-! ### Serializer and parser for the stored advertisement list -/

/-- The literal JSON syntax up to and including the opening quote of `id`. -/
def litIdKey : String := "\x7b\"id\":\""

/-- The literal JSON syntax between the `id` and `imageUri` values. -/
def litImageKey : String := ",\"imageUri\":\""

/-- The literal JSON syntax between the `imageUri` and `description` values. -/
def litDescKey : String := ",\"description\":\""

/-- The literal JSON syntax between the `description` and `url` values. -/
def litUrlKey : String := ",\"url\":\""

/-- The literal JSON syntax between the `url` and `createdAt` values. -/
def litCreatedKey : String := ",\"createdAt\":"

/-- `JSON.stringify` of one advertisement record: the five fields in
insertion order, no whitespace. -/
def serializeAd (ad : Advertisement) : String :=
  litIdKey ++ escStr ad.id ++ "\"" ++ litImageKey ++ escStr ad.imageUri
    ++ "\"" ++ litDescKey ++ escStr ad.description ++ "\"" ++ litUrlKey
    ++ escStr ad.url ++ "\"" ++ litCreatedKey ++ natToString ad.createdAt ++ "\x7d"

/-- Comma-separated concatenation, as `JSON.stringify` renders array elements. -/
def joinComma : List String → String
  | [] => ""
  | [s] => s
  | s :: rest => s ++ "," ++ joinComma rest

/-- `JSON.stringify` of the advertisement list. -/
def serializeAds (ads : List Advertisement) : String :=
  "[" ++ joinComma (ads.map serializeAd) ++ "]"

/-- Parses one serialized advertisement object. -/
def parseAd (s : List Char) : Option (Advertisement × List Char) :=
  (stripLit litIdKey.data s).bind fun s1 =>
  (parseStringLit s1).bind fun p1 =>
  (stripLit litImageKey.data p1.2).bind fun s2 =>
  (parseStringLit s2).bind fun p2 =>
  (stripLit litDescKey.data p2.2).bind fun s3 =>
  (parseStringLit s3).bind fun p3 =>
  (stripLit litUrlKey.data p3.2).bind fun s4 =>
  (parseStringLit s4).bind fun p4 =>
  (stripLit litCreatedKey.data p4.2).bind fun s5 =>
  (parseNat s5).bind fun p5 =>
  match p5.2 with
  | '\x7d' :: s6 => some (⟨⟨p1.1⟩, ⟨p2.1⟩, ⟨p3.1⟩, ⟨p4.1⟩, p5.1⟩, s6)
  | _ => none

/-- Parses a non-empty comma-separated run of advertisement objects followed
by the closing bracket; the fuel bounds the number of elements. -/
def parseAdsAux : Nat → List Char → Option (List Advertisement × List Char)
  | 0, _ => none
  | fuel + 1, s =>
    match parseAd s with
    | none => none
    | some (ad, s1) =>
      match s1 with
      | ',' :: s2 =>
        match parseAdsAux fuel s2 with
        | some (ads, r) => some (ad :: ads, r)
        | none => none
      | ']' :: s2 => some ([ad], s2)
      | _ => none

/-- `JSON.parse` restricted to the value shape the store writes; any other
input is a deserialization failure (`none`), which the store's callers treat
like a thrown `JSON.parse` error. -/
def deserializeAds (s : String) : Option (List Advertisement) :=
  match s.data with
  | '[' :: ']' :: rest => if rest = [] then some [] else none
  | '[' :: rest =>
    match parseAdsAux (rest.length + 1) rest with
    | some (ads, r) => if r = [] then some ads else none
    | none => none
  | _ => none

/-! ### Store operations

Each operation mirrors one function of `App.tsx`.  `writeOk` / `readOk`
represent whether the corresponding `AsyncStorage` call succeeds or throws.
-/

/-- Embeds `saveAdvertisements`: try to write the serialized list to the slot
and, only if the write succeeded, commit it as the new in-memory list.  On
failure nothing changes and the error alert is shown (third component). -/
def saveAdvertisements (writeOk : Bool) (ads : List Advertisement)
    (st : AppState) (sto : Storage) : AppState × Storage × Bool :=
  if writeOk then
    ({ st with advertisements := ads }, ⟨some (serializeAds ads)⟩, false)
  else
    (st, sto, true)

/-- The record `addAdvertisement` constructs: `id` is `Date.now().toString()`
and `createdAt` is a second `Date.now()` call (`tId` and `tAt` are the two
results, normally equal). -/
def newAdvertisement (tId tAt : Nat) (imageUri description url : String) :
    Advertisement :=
  { id := natToString tId
    imageUri := imageUri
    description := description
    url := url
    createdAt := tAt }

/-- Embeds `addAdvertisement`: build the new record, prepend it, save, then
navigate home.  Note the source performs no capacity check here. -/
def addAdvertisement (tId tAt : Nat) (writeOk : Bool)
    (imageUri description url : String)
    (st : AppState) (sto : Storage) : AppState × Storage :=
  let newAd := newAdvertisement tId tAt imageUri description url
  let updatedAds := newAd :: st.advertisements
  let r := saveAdvertisements writeOk updatedAds st sto
  ({ r.1 with currentScreen := Screen.Home }, r.2.1)

/-- Embeds the confirmed branch of `deleteAdvertisement` (the destructive
option of the confirmation alert): filter out the matching id, save, navigate
home.  The cancel branch changes nothing and needs no model. -/
def deleteAdvertisementConfirmed (writeOk : Bool) (id : String)
    (st : AppState) (sto : Storage) : AppState × Storage :=
  let updatedAds := st.advertisements.filter fun ad => ad.id != id
  let r := saveAdvertisements writeOk updatedAds st sto
  ({ r.1 with currentScreen := Screen.Home }, r.2.1)

/-- Embeds `loadAdvertisements`: read the slot (`readOk` is whether the read
call succeeds); a present non-empty value is parsed and committed, an absent
or empty value is skipped, and any thrown error (failed read or failed parse)
is caught and only logged (second component).  The `finally` block always
clears the loading flag. -/
def loadAdvertisements (readOk : Bool) (st : AppState) (sto : Storage) :
    AppState × Bool :=
  if readOk then
    match sto.slot with
    | some stored =>
      if stored.isEmpty then ({ st with loading := false }, false)
      else
        match deserializeAds stored with
        | some ads => ({ st with advertisements := ads, loading := false }, false)
        | none => ({ st with loading := false }, true)
    | none => ({ st with loading := false }, false)
  else
    ({ st with loading := false }, true)

/-- Embeds `handleAddPress` of the home screen: at five or more records show
the limit alert (second component `true`) and stay; otherwise navigate to the
add screen. -/
def handleAddPress (st : AppState) : AppState × Bool :=
  if 5 ≤ st.advertisements.length then (st, true)
  else ({ st with currentScreen := Screen.Add }, false)

/-- Embeds the predicate of `filteredAdvertisements`: a blank query matches
everything, otherwise the lowercased query must occur in the lowercased
description, the lowercased url, or the rendered creation date. -/
def adMatches (searchQuery : String) (ad : Advertisement) : Bool :=
  if strBlank searchQuery then true
  else
    let query := strLower searchQuery
    let description := strLower ad.description
    let url := strLower ad.url
    let date := formatDate ad.createdAt
    strContains description query || strContains url query || strContains date query

/-- Embeds `filteredAdvertisements`: the pure search filter over the current
in-memory list. -/
def filteredAdvertisements (searchQuery : String)
    (ads : List Advertisement) : List Advertisement :=
  ads.filter (adMatches searchQuery)

/-! ### Sequences of add operations -/

/-- The inputs of one attempted add: the two `Date.now()` readings and the
three validated form fields. -/
structure AddRequest where
  tId : Nat
  tAt : Nat
  imageUri : String
  description : String
  url : String

/-- One add routed through the home screen: `handleAddPress` either blocks at
the capacity limit or navigates to the add screen, from which saving calls
`addAdvertisement` (with a succeeding durable write). -/
def uiAddStep (p : AppState × Storage) (r : AddRequest) : AppState × Storage :=
  if 5 ≤ p.1.advertisements.length then p
  else addAdvertisement r.tId r.tAt true r.imageUri r.description r.url p.1 p.2

/-- A sequence of adds routed through the home screen guard. -/
def uiAddRun (reqs : List AddRequest) (p : AppState × Storage) :
    AppState × Storage :=
  reqs.foldl uiAddStep p

/-- A sequence of direct `addAdvertisement` calls (all writes succeeding). -/
def addRun (reqs : List AddRequest) (p : AppState × Storage) :
    AppState × Storage :=
  reqs.foldl
    (fun q r => addAdvertisement r.tId r.tAt true r.imageUri r.description r.url q.1 q.2)
    p

/-! ### Tameness: the domain on which the serializer model is faithful -/

/-- Characters for which `escChar` agrees with `JSON.stringify` escaping:
everything except the control characters that JSON renders as `\uXXXX`. -/
def tameChar (c : Char) : Bool :=
  decide (32 ≤ c.toNat) || c == '\n' || c == '\t' || c == '\r' || c == '\x08' || c == '\x0c'

/-- A string within the faithful domain of the serializer model. -/
def tameString (s : String) : Bool :=
  s.data.all tameChar

/-- A record whose string fields are all within the faithful domain. -/
def tameAd (ad : Advertisement) : Bool :=
  tameString ad.id && tameString ad.imageUri && tameString ad.description && tameString ad.url

/-! ### Lemmas: decimal rendering -/

theorem charDigit?_digitChar (d : Nat) (h : d < 10) :
    charDigit? (digitChar d) = some d := by
  interval_cases d <;> rfl

/-- Heads that stop the digit accumulator. -/
def headNotDigit : List Char → Prop
  | [] => True
  | c :: _ => charDigit? c = none

theorem parseDigitsAux_stop (s : List Char) (acc : Nat) (h : headNotDigit s) :
    parseDigitsAux s acc = (acc, s) := by
  cases s with
  | nil => rfl
  | cons c cs =>
    have hc : charDigit? c = none := h
    simp [parseDigitsAux, hc]

theorem parseDigitsAux_append (fuel : Nat) :
    ∀ (n : Nat), n < 10 ^ fuel → ∀ (rest : List Char) (acc : Nat),
      parseDigitsAux (natDigitsAux fuel n ++ rest) acc =
        parseDigitsAux rest (acc * 10 ^ (natDigitsAux fuel n).length + n) := by
  induction fuel with
  | zero =>
    intro n hn rest acc
    have hn0 : n = 0 := by omega
    subst hn0
    simp [natDigitsAux]
  | succ fuel ih =>
    intro n hn rest acc
    by_cases h10 : n < 10
    · simp [natDigitsAux, h10, parseDigitsAux, charDigit?_digitChar n h10]
    · have hdiv : n / 10 < 10 ^ fuel := by
        apply Nat.div_lt_of_lt_mul
        rw [← pow_succ']
        exact hn
      have hmod : n % 10 < 10 := Nat.mod_lt _ (by norm_num)
      rw [natDigitsAux]
      simp only [h10, if_false]
      rw [List.append_assoc, List.singleton_append, ih (n / 10) hdiv]
      rw [parseDigitsAux]
      simp only [charDigit?_digitChar (n % 10) hmod]
      have key : (acc * 10 ^ (natDigitsAux fuel (n / 10)).length + n / 10) * 10 + n % 10 =
          acc * 10 ^ (natDigitsAux fuel (n / 10) ++ [digitChar (n % 10)]).length + n := by
        rw [List.length_append, List.length_singleton, pow_succ]
        have h1 : (acc * 10 ^ (natDigitsAux fuel (n / 10)).length + n / 10) * 10 + n % 10 =
            acc * (10 ^ (natDigitsAux fuel (n / 10)).length * 10) + (10 * (n / 10) + n % 10) := by
          ring
        rw [h1, Nat.div_add_mod]
      rw [key]

theorem natDigitsAux_head_digit (fuel : Nat) :
    ∀ (n : Nat), n < 10 ^ fuel → 0 < fuel →
      ∃ c cs d, natDigitsAux fuel n = c :: cs ∧ charDigit? c = some d := by
  induction fuel with
  | zero => intro n _ h; omega
  | succ fuel ih =>
    intro n hn _
    by_cases h10 : n < 10
    · exact ⟨digitChar n, [], n, by simp [natDigitsAux, h10], charDigit?_digitChar n h10⟩
    · have hfuel : 0 < fuel := by
        rcases Nat.eq_zero_or_pos fuel with h0 | h0
        · subst h0; simp [pow_succ] at hn; omega
        · exact h0
      have hdiv : n / 10 < 10 ^ fuel := by
        apply Nat.div_lt_of_lt_mul
        rw [← pow_succ']
        exact hn
      obtain ⟨c, cs, d, hcons, hd⟩ := ih (n / 10) hdiv hfuel
      refine ⟨c, cs ++ [digitChar (n % 10)], d, ?_, hd⟩
      rw [natDigitsAux]
      simp [h10, hcons]

theorem parseNat_natToString (n : Nat) (rest : List Char) (h : headNotDigit rest) :
    parseNat ((natToString n).data ++ rest) = some (n, rest) := by
  have hlt : n < 10 ^ (n + 1) :=
    lt_of_lt_of_le (Nat.lt_pow_self (by norm_num) n)
      (Nat.pow_le_pow_right (by norm_num) (Nat.le_succ n))
  have hdata : (natToString n).data = natDigitsAux (n + 1) n := rfl
  obtain ⟨c, cs, d, hcons, hd⟩ :=
    natDigitsAux_head_digit (n + 1) n hlt (Nat.succ_pos n)
  rw [hdata, hcons]
  rw [parseNat.eq_def]
  simp only [List.cons_append, hd]
  rw [← List.cons_append, ← hcons, parseDigitsAux_append (n + 1) n hlt rest 0]
  rw [parseDigitsAux_stop rest _ h]
  simp

theorem natToString_injective : Function.Injective natToString := by
  intro m n hmn
  have hm := parseNat_natToString m [] trivial
  have hn := parseNat_natToString n [] trivial
  rw [List.append_nil] at hm hn
  rw [hmn] at hm
  rw [hn] at hm
  simp at hm
  exact hm.symm

/-! ### Lemmas: string escaping and the record parser -/

theorem stripLit_append (p rest : List Char) : stripLit p (p ++ rest) = some rest := by
  induction p with
  | nil => rfl
  | cons c ps ih => simp [stripLit, ih]

theorem parseStringLit_escape (cs rest : List Char) :
    parseStringLit (escapeString cs ++ '"' :: rest) = some (cs, rest) := by
  induction cs with
  | nil =>
    simp only [escapeString, List.nil_append]
    rw [parseStringLit.eq_def]
    simp
  | cons c cs ih =>
    simp only [escapeString, List.append_assoc]
    by_cases h1 : c = '"'
    · subst h1
      simp only [escChar, if_pos rfl, List.cons_append, List.nil_append]
      rw [parseStringLit.eq_def]
      simp [unescapeChar, ih]
    · by_cases h2 : c = '\\'
      · subst h2
        simp [escChar]
        rw [parseStringLit.eq_def]
        simp [unescapeChar, ih]
      · by_cases h3 : c = '\n'
        · subst h3
          simp [escChar]
          rw [parseStringLit.eq_def]
          simp [unescapeChar, ih]
        · by_cases h4 : c = '\t'
          · subst h4
            simp [escChar]
            rw [parseStringLit.eq_def]
            simp [unescapeChar, ih]
          · by_cases h5 : c = '\r'
            · subst h5
              simp [escChar]
              rw [parseStringLit.eq_def]
              simp [unescapeChar, ih]
            · by_cases h6 : c = '\x08'
              · subst h6
                simp [escChar]
                rw [parseStringLit.eq_def]
                simp [unescapeChar, ih]
              · by_cases h7 : c = '\x0c'
                · subst h7
                  simp [escChar]
                  rw [parseStringLit.eq_def]
                  simp [unescapeChar, ih]
                · simp only [escChar, if_neg h1, if_neg h2, if_neg h3, if_neg h4,
                    if_neg h5, if_neg h6, if_neg h7, List.singleton_append]
                  rw [parseStringLit.eq_def]
                  simp [h1, h2, ih]

theorem parseAd_serializeAd (ad : Advertisement) (rest : List Char) :
    parseAd ((serializeAd ad).data ++ rest) = some (ad, rest) := by
  have hid : (escStr ad.id).data = escapeString ad.id.data := rfl
  have himg : (escStr ad.imageUri).data = escapeString ad.imageUri.data := rfl
  have hdesc : (escStr ad.description).data = escapeString ad.description.data := rfl
  have hurl : (escStr ad.url).data = escapeString ad.url.data := rfl
  have hq : "\"".data = ['"'] := rfl
  have hclose : "\x7d".data = ['\x7d'] := rfl
  rw [parseAd, serializeAd]
  simp only [String.data_append, List.append_assoc, hid, himg, hdesc, hurl, hq, hclose,
    List.singleton_append, List.cons_append]
  simp only [stripLit_append, Option.some_bind, parseStringLit_escape, List.nil_append]
  rw [parseNat_natToString ad.createdAt ('\x7d' :: rest) (by rw [headNotDigit]; rfl)]
  simp only [Option.some_bind]

/-! ### Lemmas: the list serializer round-trips -/

theorem serializeAd_data_head (ad : Advertisement) :
    ∃ cs, (serializeAd ad).data = '\x7b' :: cs := by
  rw [serializeAd]
  simp only [String.data_append]
  have h : litIdKey.data = '\x7b' :: "\"id\":\"".data := rfl
  rw [h]
  simp only [List.cons_append, List.append_assoc]
  exact ⟨_, rfl⟩

theorem joinComma_map_head (a : Advertisement) (ads : List Advertisement) :
    ∃ cs, (joinComma ((a :: ads).map serializeAd)).data = '\x7b' :: cs := by
  obtain ⟨cs, hcs⟩ := serializeAd_data_head a
  cases ads with
  | nil => exact ⟨cs, hcs⟩
  | cons b bs =>
    have hj : joinComma ((a :: b :: bs).map serializeAd) =
        serializeAd a ++ "," ++ joinComma ((b :: bs).map serializeAd) := rfl
    refine ⟨cs ++ (",".data ++ (joinComma ((b :: bs).map serializeAd)).data), ?_⟩
    rw [hj]
    simp [String.data_append, hcs]

theorem joinComma_map_length (a : Advertisement) (ads : List Advertisement) :
    ads.length + 1 ≤ (joinComma ((a :: ads).map serializeAd)).data.length := by
  induction ads generalizing a with
  | nil =>
    obtain ⟨cs, hcs⟩ := serializeAd_data_head a
    have hj : joinComma ([a].map serializeAd) = serializeAd a := rfl
    rw [hj, hcs]
    simp
  | cons b bs ih =>
    obtain ⟨cs, hcs⟩ := serializeAd_data_head a
    have hj : joinComma ((a :: b :: bs).map serializeAd) =
        serializeAd a ++ "," ++ joinComma ((b :: bs).map serializeAd) := rfl
    rw [hj]
    have hb := ih b
    simp only [String.data_append, List.length_append, hcs]
    simp only [List.length_cons] at hb ⊢
    omega

theorem parseAdsAux_roundtrip :
    ∀ (ads : List Advertisement) (a : Advertisement) (fuel : Nat),
      ads.length < fuel → ∀ (rest : List Char),
        parseAdsAux fuel ((joinComma ((a :: ads).map serializeAd)).data ++ ']' :: rest) =
          some (a :: ads, rest) := by
  intro ads
  induction ads with
  | nil =>
    intro a fuel hf rest
    cases fuel with
    | zero => omega
    | succ f =>
      have hj : joinComma ([a].map serializeAd) = serializeAd a := rfl
      rw [hj, parseAdsAux, parseAd_serializeAd]
      rfl
  | cons b bs ih =>
    intro a fuel hf rest
    cases fuel with
    | zero => omega
    | succ f =>
      have hj : joinComma ((a :: b :: bs).map serializeAd) =
          serializeAd a ++ "," ++ joinComma ((b :: bs).map serializeAd) := rfl
      have hcomma : ",".data = [','] := rfl
      rw [hj]
      simp only [String.data_append, List.append_assoc, hcomma, List.singleton_append]
      rw [parseAdsAux, parseAd_serializeAd]
      have hbs : bs.length < f := by
        simp only [List.length_cons] at hf
        omega
      have hih := ih b f hbs rest
      rw [List.map_cons] at hih
      simp [hih]

theorem serializeAds_data_cons (a : Advertisement) (ads : List Advertisement) :
    (serializeAds (a :: ads)).data =
      '[' :: ((joinComma ((a :: ads).map serializeAd)).data ++ [']']) := by
  rw [serializeAds]
  have hopen : "[".data = ['['] := rfl
  have hshut : "]".data = [']'] := rfl
  simp [String.data_append, hopen, hshut]

theorem deserializeAds_serializeAds (ads : List Advertisement) :
    deserializeAds (serializeAds ads) = some ads := by
  cases ads with
  | nil => rfl
  | cons a ads =>
    obtain ⟨cs, hcs⟩ := joinComma_map_head a ads
    rw [deserializeAds, serializeAds_data_cons]
    have hsplit : (joinComma ((a :: ads).map serializeAd)).data ++ [']'] =
        '\x7b' :: (cs ++ [']']) := by
      rw [hcs]
      rfl
    rw [hsplit]
    have hback : '\x7b' :: (cs ++ [']']) =
        (joinComma ((a :: ads).map serializeAd)).data ++ ']' :: [] := by
      rw [hcs]
      rfl
    have hlen : ads.length < ('\x7b' :: (cs ++ [']'])).length + 1 := by
      have h1 := joinComma_map_length a ads
      have h2 : ('\x7b' :: (cs ++ [']'])).length =
          (joinComma ((a :: ads).map serializeAd)).data.length + 1 := by
        rw [hback]
        simp
      omega
    have hrt := parseAdsAux_roundtrip ads a (('\x7b' :: (cs ++ [']'])).length + 1) hlen []
    rw [← hback] at hrt
    have hfuel : ('\x7b' :: (cs ++ [']'])).length + 1 = cs.length + 1 + 1 + 1 := by
      simp
    rw [hfuel] at hrt
    simp [hrt]

theorem serializeAds_isEmpty (ads : List Advertisement) :
    (serializeAds ads).isEmpty = false := by
  cases ads with
  | nil => rfl
  | cons a ads =>
    cases h : (serializeAds (a :: ads)).isEmpty
    · rfl
    · exfalso
      have h2 := (String.isEmpty_iff _).mp h
      have h3 := serializeAds_data_cons a ads
      rw [h2] at h3
      simp at h3

/-! ### Lemmas: the store operations -/

theorem addAdvertisement_success (tId tAt : Nat) (img descr urlv : String)
    (st : AppState) (sto : Storage) :
    addAdvertisement tId tAt true img descr urlv st sto =
      ({ st with
          advertisements := newAdvertisement tId tAt img descr urlv :: st.advertisements,
          currentScreen := Screen.Home },
        ⟨some (serializeAds (newAdvertisement tId tAt img descr urlv :: st.advertisements))⟩) :=
  rfl

theorem load_of_serialized (ads : List Advertisement) (st : AppState) :
    loadAdvertisements true st ⟨some (serializeAds ads)⟩ =
      ({ st with advertisements := ads, loading := false }, false) := by
  rw [loadAdvertisements]
  simp [serializeAds_isEmpty, deserializeAds_serializeAds]

theorem addRun_map_id (reqs : List AddRequest) :
    ∀ (p : AppState × Storage),
      (addRun reqs p).1.advertisements.map Advertisement.id =
        (reqs.map (fun r => natToString r.tId)).reverse ++
          p.1.advertisements.map Advertisement.id := by
  induction reqs with
  | nil => intro p; simp [addRun]
  | cons r rs ih =>
    intro p
    have hstep := ih (addAdvertisement r.tId r.tAt true r.imageUri r.description r.url p.1 p.2)
    have hrun : addRun (r :: rs) p =
        addRun rs (addAdvertisement r.tId r.tAt true r.imageUri r.description r.url p.1 p.2) := by
      simp [addRun]
    rw [hrun, hstep, addAdvertisement_success]
    simp [newAdvertisement]

theorem uiAddRun_length_le (reqs : List AddRequest) :
    ∀ (p : AppState × Storage), p.1.advertisements.length ≤ 5 →
      (uiAddRun reqs p).1.advertisements.length ≤ 5 := by
  induction reqs with
  | nil => intro p h; simpa [uiAddRun] using h
  | cons r rs ih =>
    intro p h
    have hrun : uiAddRun (r :: rs) p = uiAddRun rs (uiAddStep p r) := by
      simp [uiAddRun]
    rw [hrun]
    apply ih
    rw [uiAddStep]
    by_cases hb : 5 ≤ p.1.advertisements.length
    · simpa [hb] using h
    · rw [if_neg hb, addAdvertisement_success]
      simp only [List.length_cons]
      omega

/-! ### Concrete fixtures used by counterexamples and witnesses -/

/-- The record of the spec's search example: description "Senior React
Developer", url "https://x.com/job1", created 2024-03-12 09:00 UTC. -/
def sampleAd : Advertisement :=
  { id := "1710234000000"
    imageUri := "file:///cv.png"
    description := "Senior React Developer"
    url := "https://x.com/job1"
    createdAt := 1710234000000 }

/-- A small distinct record for capacity scenarios. -/
def mkSimpleAd (n : Nat) : Advertisement :=
  { id := natToString n, imageUri := "img", description := "desc", url := "url", createdAt := n }

/-- A home-screen state already holding five records. -/
def fiveAdsState : AppState :=
  { currentScreen := Screen.Home
    advertisements := [mkSimpleAd 1, mkSimpleAd 2, mkSimpleAd 3, mkSimpleAd 4, mkSimpleAd 5]
    selectedAd := none
    loading := false }

/-- A home-screen state holding only `sampleAd`. -/
def oneAdState : AppState :=
  { currentScreen := Screen.Home
    advertisements := [sampleAd]
    selectedAd := none
    loading := false }

/-! ### Claim C1 -/

/-- C1, counterexample: the store's `addAdvertisement` performs no capacity
check at all — invoked on a state already holding five records it prepends a
sixth instead of rejecting and leaving the five unchanged. -/
theorem addAdvertisement_no_capacity_guard :
    fiveAdsState.advertisements.length = 5 ∧
    (addAdvertisement 9 9 true "img6" "desc6" "url6" fiveAdsState
        emptyStorage).1.advertisements.length = 6 ∧
    (addAdvertisement 9 9 true "img6" "desc6" "url6" fiveAdsState
        emptyStorage).1.advertisements ≠ fiveAdsState.advertisements := by
  refine ⟨rfl, rfl, ?_⟩
  decide

/-- C1 (amended): the five-record cap is enforced solely by the UI guard
`handleAddPress`, which at five or more records shows the limit alert and
leaves the state unchanged (and below five navigates to the add screen);
`addAdvertisement` itself has no guard, but every sequence of adds routed
through the UI guard keeps the count at five or below. -/
theorem capacity_enforced_only_by_ui_guard :
    (∀ st : AppState, 5 ≤ st.advertisements.length → handleAddPress st = (st, true)) ∧
    (∀ st : AppState, st.advertisements.length < 5 →
      handleAddPress st = ({ st with currentScreen := Screen.Add }, false)) ∧
    (∀ (reqs : List AddRequest) (st : AppState) (sto : Storage),
      st.advertisements.length ≤ 5 →
      (uiAddRun reqs (st, sto)).1.advertisements.length ≤ 5) := by
  refine ⟨?_, ?_, ?_⟩
  · intro st h
    rw [handleAddPress, if_pos h]
  · intro st h
    rw [handleAddPress, if_neg (by omega)]
  · intro reqs st sto h
    exact uiAddRun_length_le reqs (st, sto) h

/-- C1, witness for the amended theorem at a full store and a two-request run. -/
theorem capacity_enforced_only_by_ui_guard_witness :
    handleAddPress fiveAdsState = (fiveAdsState, true) ∧
    (uiAddRun [⟨9, 9, "i", "d", "u"⟩, ⟨10, 10, "i", "d", "u"⟩]
        (fiveAdsState, emptyStorage)).1.advertisements.length ≤ 5 :=
  ⟨capacity_enforced_only_by_ui_guard.1 fiveAdsState (by decide),
   capacity_enforced_only_by_ui_guard.2.2 [⟨9, 9, "i", "d", "u"⟩, ⟨10, 10, "i", "d", "u"⟩]
     fiveAdsState emptyStorage (by decide)⟩

/-! ### Claim C2 -/

/-- C2, counterexample: `id` is `Date.now().toString()`, so two adds whose
`Date.now()` readings fall in the same millisecond produce two records with
the same id "1000". -/
theorem same_millisecond_adds_share_id :
    ((addRun [⟨1000, 1000, "i1", "d1", "u1"⟩, ⟨1000, 1000, "i2", "d2", "u2"⟩]
        (initialAppState, emptyStorage)).1.advertisements.map Advertisement.id =
      ["1000", "1000"]) ∧
    ¬ ((addRun [⟨1000, 1000, "i1", "d1", "u1"⟩, ⟨1000, 1000, "i2", "d2", "u2"⟩]
        (initialAppState, emptyStorage)).1.advertisements.map Advertisement.id).Nodup ∧
    (addRun [⟨1000, 1000, "i1", "d1", "u1"⟩, ⟨1000, 1000, "i2", "d2", "u2"⟩]
        (initialAppState, emptyStorage)).1.advertisements.length = 2 := by
  refine ⟨by decide, by decide, by decide⟩

/-- C2 (amended): ids of records created in one run are pairwise distinct
provided the `Date.now()` readings used for id generation are pairwise
distinct; only adds within the same millisecond can collide. -/
theorem add_ids_distinct_for_distinct_timestamps :
    ∀ (reqs : List AddRequest), (reqs.map AddRequest.tId).Nodup →
      ((addRun reqs (initialAppState, emptyStorage)).1.advertisements.map
        Advertisement.id).Nodup := by
  intro reqs h
  rw [addRun_map_id]
  have hmm : (reqs.map fun r => natToString r.tId) =
      (reqs.map AddRequest.tId).map natToString := by
    rw [List.map_map]
    rfl
  have hinit : initialAppState.advertisements.map Advertisement.id = [] := rfl
  rw [hinit, List.append_nil, List.nodup_reverse, hmm]
  exact h.map natToString_injective

/-- C2, witness: two adds one millisecond apart yield distinct ids. -/
theorem add_ids_distinct_for_distinct_timestamps_witness :
    (([⟨1000, 1000, "i1", "d1", "u1"⟩, ⟨1001, 1001, "i2", "d2", "u2"⟩].map
        AddRequest.tId).Nodup) ∧
    ((addRun [⟨1000, 1000, "i1", "d1", "u1"⟩, ⟨1001, 1001, "i2", "d2", "u2"⟩]
        (initialAppState, emptyStorage)).1.advertisements.map Advertisement.id).Nodup :=
  ⟨by decide,
   add_ids_distinct_for_distinct_timestamps
     [⟨1000, 1000, "i1", "d1", "u1"⟩, ⟨1001, 1001, "i2", "d2", "u2"⟩] (by decide)⟩

/-! ### Claim C3 -/

/-- C3: when the durable write of an add fails, `saveAdvertisements` catches
the error before `setAdvertisements` runs, so the in-memory list (and the
durable slot) after `addAdvertisement` equal those from before the call —
no partial commit is observable. -/
theorem add_write_failure_leaves_state_unchanged :
    ∀ (tId tAt : Nat) (img descr urlv : String) (st : AppState) (sto : Storage),
      (addAdvertisement tId tAt false img descr urlv st sto).1.advertisements =
        st.advertisements ∧
      (addAdvertisement tId tAt false img descr urlv st sto).2 = sto :=
  fun _ _ _ _ _ _ _ => ⟨rfl, rfl⟩

/-! ### Claim C4 -/

/-- C4: `loadAdvertisements` run from the initial state leaves the list empty
when the slot is absent, falls back to the empty list when the read throws or
the stored value fails to parse (merely reporting the error), and in every
case ends with the loading flag cleared. -/
theorem load_failure_falls_back_to_empty :
    ∀ (readOk : Bool) (sto : Storage),
      (loadAdvertisements readOk initialAppState sto).1.loading = false ∧
      (sto.slot = none →
        (loadAdvertisements readOk initialAppState sto).1.advertisements = []) ∧
      (readOk = false →
        (loadAdvertisements readOk initialAppState sto).1.advertisements = [] ∧
        (loadAdvertisements readOk initialAppState sto).2 = true) ∧
      (∀ s : String, sto.slot = some s → deserializeAds s = none →
        (loadAdvertisements readOk initialAppState sto).1.advertisements = []) := by
  intro readOk sto
  cases readOk with
  | false => simp [loadAdvertisements, initialAppState]
  | true =>
    cases hslot : sto.slot with
    | none => simp [loadAdvertisements, hslot, initialAppState]
    | some s =>
      by_cases hemp : s.isEmpty = true
      · simp [loadAdvertisements, hslot, hemp, initialAppState]
      · cases hdes : deserializeAds s with
        | none =>
          simp [loadAdvertisements, hslot, hemp, hdes, initialAppState]
        | some ads =>
          refine ⟨by simp [loadAdvertisements, hslot, hemp, hdes], by simp [hslot], by simp, ?_⟩
          intro s2 hs2 hdes2
          have hs : s2 = s := (Option.some.inj hs2).symm
          rw [hs, hdes] at hdes2
          cases hdes2

/-- C4, witness: a present but unparseable slot value degrades to the empty
list with the loading flag cleared, as does a failing read. -/
theorem load_failure_falls_back_to_empty_witness :
    deserializeAds "oops" = none ∧
    (loadAdvertisements true initialAppState ⟨some "oops"⟩).1.advertisements = [] ∧
    (loadAdvertisements true initialAppState ⟨some "oops"⟩).1.loading = false ∧
    (loadAdvertisements false initialAppState ⟨some "oops"⟩).1.advertisements = [] :=
  ⟨by decide,
   (load_failure_falls_back_to_empty true ⟨some "oops"⟩).2.2.2 "oops" rfl (by decide),
   (load_failure_falls_back_to_empty true ⟨some "oops"⟩).1,
   ((load_failure_falls_back_to_empty false ⟨some "oops"⟩).2.2.1 rfl).1⟩

/-! ### Claim C5 -/

/-- C5: a successful add prepends the freshly constructed record at index 0,
so after `add(a)` then `add(b)` both the current state and a reload of the
persisted slot list `b` before `a` with every prior record keeping its
position behind them. -/
theorem add_prepends_newest_first :
    (∀ (tId tAt : Nat) (img descr urlv : String) (st : AppState) (sto : Storage),
      (addAdvertisement tId tAt true img descr urlv st sto).1.advertisements =
        newAdvertisement tId tAt img descr urlv :: st.advertisements) ∧
    (∀ (a b : AddRequest) (st : AppState) (sto : Storage),
      (addAdvertisement b.tId b.tAt true b.imageUri b.description b.url
          (addAdvertisement a.tId a.tAt true a.imageUri a.description a.url st sto).1
          (addAdvertisement a.tId a.tAt true a.imageUri a.description a.url st
            sto).2).1.advertisements =
        newAdvertisement b.tId b.tAt b.imageUri b.description b.url ::
          newAdvertisement a.tId a.tAt a.imageUri a.description a.url ::
            st.advertisements) ∧
    (∀ (a b : AddRequest) (st : AppState) (sto : Storage),
      (loadAdvertisements true initialAppState
          (addAdvertisement b.tId b.tAt true b.imageUri b.description b.url
            (addAdvertisement a.tId a.tAt true a.imageUri a.description a.url st sto).1
            (addAdvertisement a.tId a.tAt true a.imageUri a.description a.url st
              sto).2).2).1.advertisements =
        newAdvertisement b.tId b.tAt b.imageUri b.description b.url ::
          newAdvertisement a.tId a.tAt a.imageUri a.description a.url ::
            st.advertisements) := by
  refine ⟨fun _ _ _ _ _ _ _ => rfl, fun _ _ _ _ => rfl, ?_⟩
  intro a b st sto
  rw [addAdvertisement_success a.tId a.tAt a.imageUri a.description a.url st sto]
  rw [addAdvertisement_success]
  rw [load_of_serialized]

/-! ### Claim C6 -/

/-- C6, counterexample: the query of two spaces is non-empty, yet —
because the filter first tests `!searchQuery.trim()` — it matches every
record, even one none of whose three searchable strings contains two
consecutive spaces; so "search(query) includes a record iff the lowercased
query is a substring of description, url or rendered date" fails for
non-empty all-whitespace queries. -/
theorem search_whitespace_query_counterexample :
    ("  " : String) ≠ "" ∧
    filteredAdvertisements "  " [sampleAd] = [sampleAd] ∧
    (strContains (strLower sampleAd.description) (strLower "  ") ||
     strContains (strLower sampleAd.url) (strLower "  ") ||
     strContains (formatDate sampleAd.createdAt) (strLower "  ")) = false := by
  refine ⟨by decide, by decide, by decide⟩

/-- C6 (amended): for every query that still has a character after trimming
whitespace, a record passes the filter iff the lowercased query occurs in the
lowercased description, the lowercased url, or the creation timestamp
rendered as `DD.MM.YYYY HH:MM`; all-whitespace queries instead match every
record.  The spec's concrete examples hold on `sampleAd`. -/
theorem search_match_iff_and_examples :
    (∀ (q : String) (ad : Advertisement), strBlank q = false →
      (adMatches q ad = true ↔
        (strContains (strLower ad.description) (strLower q) ||
         strContains (strLower ad.url) (strLower q) ||
         strContains (formatDate ad.createdAt) (strLower q)) = true)) ∧
    (∀ (q : String) (ads : List Advertisement) (ad : Advertisement),
      ad ∈ filteredAdvertisements q ads ↔ ad ∈ ads ∧ adMatches q ad = true) ∧
    filteredAdvertisements "react" [sampleAd] = [sampleAd] ∧
    filteredAdvertisements "JOB1" [sampleAd] = [sampleAd] ∧
    filteredAdvertisements "12.03.2024" [sampleAd] = [sampleAd] ∧
    filteredAdvertisements "golang" [sampleAd] = [] := by
  refine ⟨?_, ?_, by decide, by decide, by decide, by decide⟩
  · intro q ad h
    rw [adMatches]
    simp [h]
  · intro q ads ad
    rw [filteredAdvertisements]
    simp [List.mem_filter]

/-- C6, witness for the amended equivalence at the query "react" on
`sampleAd`, whose match indeed holds. -/
theorem search_match_iff_and_examples_witness :
    (adMatches "react" sampleAd = true ↔
      (strContains (strLower sampleAd.description) (strLower "react") ||
       strContains (strLower sampleAd.url) (strLower "react") ||
       strContains (formatDate sampleAd.createdAt) (strLower "react")) = true) ∧
    adMatches "react" sampleAd = true :=
  ⟨search_match_iff_and_examples.1 "react" sampleAd (by decide), by decide⟩

/-! ### Claim C7 -/

/-- C7: a blank (empty or all-whitespace) query leaves the list unchanged,
and for every query the search result is exactly the current list filtered
by the match predicate — a sublist, so the newest-first order is preserved;
the filter is a total function of the in-memory list alone and never touches
the `Storage` value. -/
theorem search_blank_identity_and_order :
    (∀ (q : String) (ads : List Advertisement), strBlank q = true →
      filteredAdvertisements q ads = ads) ∧
    (∀ (q : String) (ads : List Advertisement),
      filteredAdvertisements q ads = ads.filter (adMatches q) ∧
      (filteredAdvertisements q ads).Sublist ads) := by
  constructor
  · intro q ads h
    rw [filteredAdvertisements, List.filter_eq_self]
    intro ad _
    rw [adMatches, if_pos h]
  · intro q ads
    exact ⟨rfl, List.filter_sublist ads⟩

/-- C7, witness: the single-space query keeps a one-record list intact. -/
theorem search_blank_identity_and_order_witness :
    strBlank " " = true ∧ filteredAdvertisements " " [sampleAd] = [sampleAd] :=
  ⟨by decide, search_blank_identity_and_order.1 " " [sampleAd] (by decide)⟩

/-! ### Claim C8 -/

/-- C8: deleting an id not present leaves the in-memory list unchanged (a
no-op, not an error), and deleting the same id twice produces exactly the
state and storage of deleting it once. -/
theorem delete_noop_and_idempotent :
    (∀ (adId : String) (st : AppState) (sto : Storage),
      (∀ ad ∈ st.advertisements, ad.id ≠ adId) →
      (deleteAdvertisementConfirmed true adId st sto).1.advertisements =
        st.advertisements) ∧
    (∀ (adId : String) (st : AppState) (sto : Storage),
      deleteAdvertisementConfirmed true adId
          (deleteAdvertisementConfirmed true adId st sto).1
          (deleteAdvertisementConfirmed true adId st sto).2 =
        deleteAdvertisementConfirmed true adId st sto) := by
  have hd : ∀ (adId : String) (st : AppState) (sto : Storage),
      deleteAdvertisementConfirmed true adId st sto =
        ({ st with
            advertisements := st.advertisements.filter fun ad => ad.id != adId,
            currentScreen := Screen.Home },
          ⟨some (serializeAds (st.advertisements.filter fun ad => ad.id != adId))⟩) :=
    fun _ _ _ => rfl
  constructor
  · intro adId st sto h
    rw [hd]
    simp only
    rw [List.filter_eq_self]
    intro ad had
    simpa using h ad had
  · intro adId st sto
    have hfilter :
        ((st.advertisements.filter fun ad => ad.id != adId).filter
          fun ad => ad.id != adId) =
          st.advertisements.filter fun ad => ad.id != adId := by
      rw [List.filter_filter]
      simp
    rw [hd, hd]
    simp [hfilter]

/-- C8, witness: deleting the absent id "zzz" from a one-record store leaves
the record in place. -/
theorem delete_noop_and_idempotent_witness :
    (deleteAdvertisementConfirmed true "zzz" oneAdState emptyStorage).1.advertisements =
      oneAdState.advertisements ∧
    deleteAdvertisementConfirmed true "zzz"
        (deleteAdvertisementConfirmed true "zzz" oneAdState emptyStorage).1
        (deleteAdvertisementConfirmed true "zzz" oneAdState emptyStorage).2 =
      deleteAdvertisementConfirmed true "zzz" oneAdState emptyStorage :=
  ⟨delete_noop_and_idempotent.1 "zzz" oneAdState emptyStorage (by decide),
   delete_noop_and_idempotent.2 "zzz" oneAdState emptyStorage⟩

/-! ### Claim C9 -/

/-- C9: a record added with a succeeding durable write round-trips through
the slot — reloading the persisted blob from a fresh initial state
(simulating a process restart) reproduces the post-add list, whose head
carries exactly the id, imageUri, description, url and createdAt that were
written.  The tameness hypotheses restrict the fields to the domain on which
the serializer model is faithful to `JSON.stringify` (no control characters
other than newline, tab, carriage return, backspace and form feed). -/
theorem add_persist_reload_roundtrip :
    ∀ (tId tAt : Nat) (img descr urlv : String) (st : AppState) (sto : Storage),
      tameString img = true → tameString descr = true → tameString urlv = true →
      (∀ ad ∈ st.advertisements, tameAd ad = true) →
      (loadAdvertisements true initialAppState
          (addAdvertisement tId tAt true img descr urlv st sto).2).1.advertisements =
        (addAdvertisement tId tAt true img descr urlv st sto).1.advertisements ∧
      ((loadAdvertisements true initialAppState
          (addAdvertisement tId tAt true img descr urlv st sto).2).1.advertisements).head? =
        some { id := natToString tId, imageUri := img, description := descr,
               url := urlv, createdAt := tAt } := by
  intro tId tAt img descr urlv st sto _ _ _ _
  rw [addAdvertisement_success, load_of_serialized]
  exact ⟨rfl, rfl⟩

set_option maxRecDepth 100000 in
/-- C9, witness: a concrete add followed by a reload from the written slot
restores the record field for field. -/
theorem add_persist_reload_roundtrip_witness :
    tameString "file:///cv.png" = true ∧
    tameString "Senior React Developer" = true ∧
    tameString "https://x.com/job1" = true ∧
    ((loadAdvertisements true initialAppState
        (addAdvertisement 1710234000000 1710234000000 true "file:///cv.png"
          "Senior React Developer" "https://x.com/job1" initialAppState
          emptyStorage).2).1.advertisements).head? =
      some { id := natToString 1710234000000, imageUri := "file:///cv.png",
             description := "Senior React Developer", url := "https://x.com/job1",
             createdAt := 1710234000000 } :=
  ⟨by decide, by decide, by decide,
   (add_persist_reload_roundtrip 1710234000000 1710234000000 "file:///cv.png"
     "Senior React Developer" "https://x.com/job1" initialAppState emptyStorage
     (by decide) (by decide) (by decide) (by intro ad had; cases had)).2⟩

/-! ### Claim C10 -/

/-- C10: the confirmed delete filters out every record whose id equals the
argument (keeping all others in their original relative order, being a
filter of the original list), and writes the resulting full list to the slot
unconditionally — also when nothing matched. -/
theorem delete_filters_all_matches_and_persists :
    ∀ (adId : String) (st : AppState) (sto : Storage),
      (deleteAdvertisementConfirmed true adId st sto).1.advertisements =
        st.advertisements.filter (fun ad => ad.id != adId) ∧
      (deleteAdvertisementConfirmed true adId st sto).2.slot =
        some (serializeAds (st.advertisements.filter (fun ad => ad.id != adId))) ∧
      (∀ ad ∈ (deleteAdvertisementConfirmed true adId st sto).1.advertisements,
        ad.id ≠ adId) ∧
      (∀ ad ∈ st.advertisements, ad.id ≠ adId →
        ad ∈ (deleteAdvertisementConfirmed true adId st sto).1.advertisements) := by
  intro adId st sto
  refine ⟨rfl, rfl, ?_, ?_⟩
  · intro ad had
    have had2 : ad ∈ st.advertisements.filter (fun a => a.id != adId) := had
    have := (List.mem_filter.mp had2).2
    simpa using this
  · intro ad had hne
    show ad ∈ st.advertisements.filter (fun a => a.id != adId)
    exact List.mem_filter.mpr ⟨had, by simpa using hne⟩

/-- C10, witness: deleting an absent id still rewrites the slot with the
(unchanged) full list, and the present record survives. -/
theorem delete_filters_all_matches_and_persists_witness :
    (deleteAdvertisementConfirmed true "zzz" oneAdState emptyStorage).2.slot =
      some (serializeAds (oneAdState.advertisements.filter (fun ad => ad.id != "zzz"))) ∧
    sampleAd ∈ (deleteAdvertisementConfirmed true "zzz" oneAdState
      emptyStorage).1.advertisements :=
  ⟨(delete_filters_all_matches_and_persists "zzz" oneAdState emptyStorage).2.1,
   (delete_filters_all_matches_and_persists "zzz" oneAdState emptyStorage).2.2.2
     sampleAd (by decide) (by decide)⟩
